import Mathlib

/-!
Verification of the KittyEngine object arena, mesh builder, loader and
rasterizer invariants, shallowly embedded from `src/kittyengine.c` and
`src/kittyengine.h`.

Modelling conventions:
* C `size_t` counters become `Nat`; where wraparound matters it is taken
  explicitly mod `2 ^ 64` (`kittySizetSub1`).
* C `float` quantities become `ℚ` (all claims involve exact arithmetic).
* The arena's backing array is modelled by the list of its live objects
  (the first `allocation_count` slots); `total_allocated` is tracked in
  bytes exactly as in the C struct `k_ObjectMSpace`.
* `malloc`/`realloc` are modelled on their success path: the claims under
  study condition on the operations succeeding.
-/

/-- `Kitty_Color` (kittyengine.h): four 8-bit channels. -/
structure Kitty_Color where
  r : ℕ
  g : ℕ
  b : ℕ
  a : ℕ
deriving DecidableEq

/-- `enum Kitty_ObjType` (kittyengine.h). -/
inductive Kitty_ObjType where
  | circle
  | rectangle
  | line
  | triangle
  | pixel
  | mesh
  | text
deriving DecidableEq

/-- `Kitty_Object` (kittyengine.h): a type tag plus the payload pointer
(`void* data`, modelled by its address value).  Objects are copied by
value into and out of the arena, so equality is field-wise equality of
the tag and the pointer. -/
structure Kitty_Object where
  type : Kitty_ObjType
  data : ℕ
deriving DecidableEq

/-- `KITTY_SUCCESS` (kittyengine.h). -/
def KITTY_SUCCESS : ℕ := 0

/-- `KITTY_INVALID_OBJECT_INDEX` (kittyengine.h). -/
def KITTY_INVALID_OBJECT_INDEX : ℕ := 103

/-- `K_DEFAULT_OBJECT_MSPACE_SIZE` (kittyengine.c): the fixed 1 MiB block. -/
def K_DEFAULT_OBJECT_MSPACE_SIZE : ℕ := 1024 * 1024

/-- `sizeof(Kitty_Object)` on an LP64 target: a 4-byte enum padded to 8
plus an 8-byte pointer. -/
def kittyObjectSize : ℕ := 16

/-- `k_ObjectMSpace` (kittyengine.c): the arena.  `objects` is the list of
live objects (slots `0 .. allocation_count-1` of the C array);
`total_allocated` is the reserved capacity in bytes. -/
structure k_ObjectMSpace where
  total_allocated : ℕ
  objects : List Kitty_Object
deriving DecidableEq

/-- `allocation_count` of the C struct: the number of live objects. -/
def k_ObjectMSpace.allocation_count (s : k_ObjectMSpace) : ℕ :=
  s.objects.length

/-- `k_AllocObjectMSpace` (kittyengine.c:959): grow the reservation by one
fixed block (success path of `realloc`). -/
def k_AllocObjectMSpace (s : k_ObjectMSpace) : k_ObjectMSpace :=
  { s with total_allocated := s.total_allocated + K_DEFAULT_OBJECT_MSPACE_SIZE }

/-- `k_UnallocObjectMSpace` (kittyengine.c:973): shrink the reservation by
one fixed block (success path of `realloc`). -/
def k_UnallocObjectMSpace (s : k_ObjectMSpace) : k_ObjectMSpace :=
  { s with total_allocated := s.total_allocated - K_DEFAULT_OBJECT_MSPACE_SIZE }

/-- `k_ReallocObjectMSpace` (kittyengine.c:988): the capacity policy.
Grow when `allocation_count * sizeof(Kitty_Object) >= total_allocated`;
otherwise shrink when utilization is below a quarter of the reservation
and the reservation is strictly above one block; otherwise do nothing. -/
def k_ReallocObjectMSpace (s : k_ObjectMSpace) : k_ObjectMSpace :=
  if s.allocation_count * kittyObjectSize ≥ s.total_allocated then
    k_AllocObjectMSpace s
  else if s.allocation_count * kittyObjectSize < s.total_allocated / 4 ∧
      s.total_allocated > K_DEFAULT_OBJECT_MSPACE_SIZE then
    k_UnallocObjectMSpace s
  else
    s

/-- The arena right after `Kitty_Init` (kittyengine.c:49):
`k_CreateObjectMSpace` makes the empty zero-byte arena and
`k_AllocObjectMSpace` immediately reserves the first block. -/
def kittyInitMSpace : k_ObjectMSpace :=
  k_AllocObjectMSpace { total_allocated := 0, objects := [] }

/-- `Kitty_AddObject` (kittyengine.c:565): run the capacity check, then
store the object at slot `allocation_count` and bump the count.
Returns the error code together with the new arena. -/
def Kitty_AddObject (s : k_ObjectMSpace) (obj : Kitty_Object) :
    ℕ × k_ObjectMSpace :=
  let s' := k_ReallocObjectMSpace s
  (KITTY_SUCCESS, { s' with objects := s'.objects ++ [obj] })

/-- `Kitty_RemoveObject` (kittyengine.c:578): reject an out-of-range
index; otherwise the shift loop overwrites slots `index .. count-2` with
their successors and the count is decremented, so the live prefix becomes
`take index ++ drop (index+1)`; finally the capacity check runs. -/
def Kitty_RemoveObject (s : k_ObjectMSpace) (index : ℕ) :
    ℕ × k_ObjectMSpace :=
  if index ≥ s.allocation_count then
    (KITTY_INVALID_OBJECT_INDEX, s)
  else
    let s' := { s with objects := s.objects.take index ++ s.objects.drop (index + 1) }
    (KITTY_SUCCESS, k_ReallocObjectMSpace s')

/-- `Kitty_GetObject` (kittyengine.c:597): reject an out-of-range index
without touching `*out_obj`; otherwise copy the stored object out.  The
second component is what gets written through the out-parameter. -/
def Kitty_GetObject (s : k_ObjectMSpace) (index : ℕ) :
    ℕ × Option Kitty_Object :=
  if index ≥ s.allocation_count then
    (KITTY_INVALID_OBJECT_INDEX, none)
  else
    (KITTY_SUCCESS, s.objects[index]?)

/-- One mutating arena call, for reasoning about all reachable states. -/
inductive KittyArenaOp where
  | add (obj : Kitty_Object)
  | remove (index : ℕ)

/-- Apply one arena call to a state. -/
def kittyApplyOp (s : k_ObjectMSpace) : KittyArenaOp → k_ObjectMSpace
  | .add obj => (Kitty_AddObject s obj).2
  | .remove i => (Kitty_RemoveObject s i).2

/-- The arena state after an arbitrary call sequence following `Kitty_Init`. -/
def kittyRunOps (ops : List KittyArenaOp) : k_ObjectMSpace :=
  ops.foldl kittyApplyOp kittyInitMSpace

theorem k_ReallocObjectMSpace_objects (s : k_ObjectMSpace) :
    (k_ReallocObjectMSpace s).objects = s.objects := by
  unfold k_ReallocObjectMSpace k_AllocObjectMSpace k_UnallocObjectMSpace
  split <;> [rfl; split <;> rfl]

/-- The capacity invariant: the reservation is a whole number of blocks
and at least one block. -/
def kittyCapacityInv (s : k_ObjectMSpace) : Prop :=
  K_DEFAULT_OBJECT_MSPACE_SIZE ∣ s.total_allocated ∧
    K_DEFAULT_OBJECT_MSPACE_SIZE ≤ s.total_allocated

theorem kittyCapacityInv_realloc {s : k_ObjectMSpace}
    (h : kittyCapacityInv s) : kittyCapacityInv (k_ReallocObjectMSpace s) := by
  obtain ⟨hdvd, hle⟩ := h
  unfold k_ReallocObjectMSpace
  split
  · exact ⟨hdvd.add dvd_rfl, le_trans hle (Nat.le_add_right _ _)⟩
  split
  · rename_i hcond
    obtain ⟨c, hc⟩ := hdvd
    have hgt := hcond.2
    have hc1 : 1 < c := by
      rw [hc] at hgt
      have hpos : 0 < K_DEFAULT_OBJECT_MSPACE_SIZE := by decide
      exact lt_of_mul_lt_mul_left (a := K_DEFAULT_OBJECT_MSPACE_SIZE)
        (by simpa using hgt) (Nat.zero_le _)
    have h2 : 2 * K_DEFAULT_OBJECT_MSPACE_SIZE ≤ s.total_allocated := by
      rw [hc]
      calc 2 * K_DEFAULT_OBJECT_MSPACE_SIZE = K_DEFAULT_OBJECT_MSPACE_SIZE * 2 := by ring
        _ ≤ K_DEFAULT_OBJECT_MSPACE_SIZE * c := Nat.mul_le_mul_left _ (by omega)
    refine ⟨Nat.dvd_sub' ⟨c, hc⟩ dvd_rfl, ?_⟩
    show K_DEFAULT_OBJECT_MSPACE_SIZE ≤ s.total_allocated - K_DEFAULT_OBJECT_MSPACE_SIZE
    omega
  · exact ⟨hdvd, hle⟩

theorem kittyCapacityInv_applyOp {s : k_ObjectMSpace}
    (h : kittyCapacityInv s) (op : KittyArenaOp) :
    kittyCapacityInv (kittyApplyOp s op) := by
  cases op with
  | add obj =>
      have := kittyCapacityInv_realloc h
      simpa [kittyApplyOp, Kitty_AddObject, kittyCapacityInv] using this
  | remove i =>
      simp only [kittyApplyOp, Kitty_RemoveObject]
      split
      · exact h
      · exact kittyCapacityInv_realloc h

theorem kittyCapacityInv_foldl (ops : List KittyArenaOp) (s : k_ObjectMSpace)
    (h : kittyCapacityInv s) : kittyCapacityInv (ops.foldl kittyApplyOp s) := by
  induction ops generalizing s with
  | nil => exact h
  | cons op t ih =>
      exact ih _ (kittyCapacityInv_applyOp h op)

theorem kittyCapacityInv_runOps (ops : List KittyArenaOp) :
    kittyCapacityInv (kittyRunOps ops) := by
  refine kittyCapacityInv_foldl ops kittyInitMSpace ?_
  constructor <;> simp [kittyInitMSpace, k_AllocObjectMSpace]

/-- C1: for EVERY arena state `s` (the capacity check runs both at the
start of an insert and, inside a remove, at the post-shift intermediate
state — the only place the shrink branch can actually fire), the check
grows the reservation by exactly one 1 MiB block when
`count * sizeof(object) >= capacity`, shrinks it by exactly one block
only when `count * sizeof(object) < capacity / 4` and the capacity is
strictly above one block, and otherwise leaves it unchanged; and in
every state reachable from initialization the capacity is a whole
multiple of the block and never below one block. -/
theorem kitty_capacity_policy (s : k_ObjectMSpace) (ops : List KittyArenaOp) :
    (s.allocation_count * kittyObjectSize ≥ s.total_allocated →
      (k_ReallocObjectMSpace s).total_allocated =
        s.total_allocated + K_DEFAULT_OBJECT_MSPACE_SIZE) ∧
    (s.allocation_count * kittyObjectSize < s.total_allocated →
      s.allocation_count * kittyObjectSize < s.total_allocated / 4 →
      K_DEFAULT_OBJECT_MSPACE_SIZE < s.total_allocated →
      (k_ReallocObjectMSpace s).total_allocated =
        s.total_allocated - K_DEFAULT_OBJECT_MSPACE_SIZE) ∧
    (s.allocation_count * kittyObjectSize < s.total_allocated →
      ¬(s.allocation_count * kittyObjectSize < s.total_allocated / 4 ∧
        K_DEFAULT_OBJECT_MSPACE_SIZE < s.total_allocated) →
      (k_ReallocObjectMSpace s).total_allocated = s.total_allocated) ∧
    (K_DEFAULT_OBJECT_MSPACE_SIZE ∣ (kittyRunOps ops).total_allocated ∧
      K_DEFAULT_OBJECT_MSPACE_SIZE ≤ (kittyRunOps ops).total_allocated) := by
  refine ⟨?_, ?_, ?_, kittyCapacityInv_runOps ops⟩
  · intro h
    unfold k_ReallocObjectMSpace
    rw [if_pos h]
    rfl
  · intro hlt h4 hfloor
    unfold k_ReallocObjectMSpace
    rw [if_neg (by omega), if_pos ⟨h4, hfloor⟩]
    rfl
  · intro hlt hnot
    unfold k_ReallocObjectMSpace
    rw [if_neg (by omega), if_neg hnot]

/-- Witness for C1 exercising all three branches of the policy on
concrete states: the zero-capacity create state grows to one block (as
in `Kitty_Init`); an empty arena still holding two blocks — the
post-shift state of removing the last object of a grown arena — shrinks
back to one block; the freshly initialized one-block arena is left
unchanged. -/
theorem kitty_capacity_policy_witness :
    (k_ReallocObjectMSpace ⟨0, []⟩).total_allocated =
      0 + K_DEFAULT_OBJECT_MSPACE_SIZE ∧
    (k_ReallocObjectMSpace ⟨2 * K_DEFAULT_OBJECT_MSPACE_SIZE, []⟩).total_allocated =
      2 * K_DEFAULT_OBJECT_MSPACE_SIZE - K_DEFAULT_OBJECT_MSPACE_SIZE ∧
    (k_ReallocObjectMSpace (kittyRunOps [])).total_allocated =
      (kittyRunOps []).total_allocated :=
  ⟨(kitty_capacity_policy ⟨0, []⟩ []).1 (by decide),
    (kitty_capacity_policy ⟨2 * K_DEFAULT_OBJECT_MSPACE_SIZE, []⟩ []).2.1
      (by decide) (by decide) (by decide),
    (kitty_capacity_policy (kittyRunOps []) []).2.2.1 (by decide) (by decide)⟩

/-- C2: an out-of-range index (`index >= allocation_count`) makes both
`Kitty_GetObject` and `Kitty_RemoveObject` return
`KITTY_INVALID_OBJECT_INDEX` (103), leave the arena state (count,
capacity and every stored object) exactly as it was, and `GetObject`
writes nothing through its out-parameter. -/
theorem kitty_oob_access (s : k_ObjectMSpace) (i : ℕ)
    (h : i ≥ s.allocation_count) :
    KITTY_INVALID_OBJECT_INDEX = 103 ∧
    Kitty_GetObject s i = (KITTY_INVALID_OBJECT_INDEX, none) ∧
    Kitty_RemoveObject s i = (KITTY_INVALID_OBJECT_INDEX, s) := by
  refine ⟨rfl, ?_, ?_⟩
  · unfold Kitty_GetObject
    rw [if_pos h]
  · unfold Kitty_RemoveObject
    rw [if_pos h]

/-- Witness for C2: a one-object arena queried at index 1. -/
theorem kitty_oob_access_witness :
    Kitty_GetObject ⟨K_DEFAULT_OBJECT_MSPACE_SIZE, [⟨Kitty_ObjType.circle, 1⟩]⟩ 1 =
      (KITTY_INVALID_OBJECT_INDEX, none) ∧
    Kitty_RemoveObject ⟨K_DEFAULT_OBJECT_MSPACE_SIZE, [⟨Kitty_ObjType.circle, 1⟩]⟩ 1 =
      (KITTY_INVALID_OBJECT_INDEX, ⟨K_DEFAULT_OBJECT_MSPACE_SIZE, [⟨Kitty_ObjType.circle, 1⟩]⟩) :=
  (kitty_oob_access ⟨K_DEFAULT_OBJECT_MSPACE_SIZE, [⟨Kitty_ObjType.circle, 1⟩]⟩ 1 (by decide)).2

/-- C3: a successful `Kitty_AddObject` on an arena holding `n` objects
stores the object so that `Kitty_GetObject` at index `n` immediately
succeeds and returns a copy equal in both fields to the inserted object,
and the count becomes `n + 1`. -/
theorem kitty_add_get_roundtrip (s : k_ObjectMSpace) (obj : Kitty_Object) :
    (Kitty_AddObject s obj).1 = KITTY_SUCCESS ∧
    (Kitty_AddObject s obj).2.allocation_count = s.allocation_count + 1 ∧
    Kitty_GetObject (Kitty_AddObject s obj).2 s.allocation_count =
      (KITTY_SUCCESS, some obj) := by
  have hobjs : (Kitty_AddObject s obj).2.objects = s.objects ++ [obj] := by
    simp [Kitty_AddObject, k_ReallocObjectMSpace_objects]
  have hcount : (Kitty_AddObject s obj).2.allocation_count = s.allocation_count + 1 := by
    simp [k_ObjectMSpace.allocation_count, hobjs]
  refine ⟨rfl, hcount, ?_⟩
  unfold Kitty_GetObject
  rw [if_neg (by rw [hcount]; omega)]
  rw [hobjs]
  show (KITTY_SUCCESS, (s.objects ++ [obj])[s.objects.length]?) = _
  rw [List.getElem?_concat_length]

/-- C4: a successful removal at a valid index `i` returns success,
decrements the count, leaves positions `0 .. i-1` untouched and shifts
the object at each position `j` with `i < j < n` down to `j - 1`, so the
remaining objects keep their relative order. -/
theorem kitty_remove_shifts (s : k_ObjectMSpace) (i : ℕ)
    (h : i < s.allocation_count) :
    (Kitty_RemoveObject s i).1 = KITTY_SUCCESS ∧
    (Kitty_RemoveObject s i).2.allocation_count = s.allocation_count - 1 ∧
    (Kitty_RemoveObject s i).2.objects = s.objects.take i ++ s.objects.drop (i + 1) ∧
    (∀ j, j < i → ((Kitty_RemoveObject s i).2.objects)[j]? = s.objects[j]?) ∧
    (∀ j, i < j → j < s.allocation_count →
      ((Kitty_RemoveObject s i).2.objects)[j - 1]? = s.objects[j]?) := by
  have hn : ¬ i ≥ s.allocation_count := by omega
  have hobjs : (Kitty_RemoveObject s i).2.objects =
      s.objects.take i ++ s.objects.drop (i + 1) := by
    unfold Kitty_RemoveObject
    rw [if_neg hn]
    exact k_ReallocObjectMSpace_objects _
  have hlen : (s.objects.take i).length = i := by
    rw [List.length_take]
    exact Nat.min_eq_left (Nat.le_of_lt h)
  refine ⟨?_, ?_, hobjs, ?_, ?_⟩
  · unfold Kitty_RemoveObject
    rw [if_neg hn]
  · rw [k_ObjectMSpace.allocation_count, hobjs]
    rw [List.length_append, hlen, List.length_drop]
    unfold k_ObjectMSpace.allocation_count at h ⊢
    omega
  · intro j hj
    rw [hobjs, List.getElem?_append, if_pos (by omega)]
    exact List.getElem?_take_of_lt hj
  · intro j hij hjn
    rw [hobjs, List.getElem?_append_right (by omega)]
    rw [List.getElem?_drop, hlen]
    congr 1
    omega

/-- Witness for C4: removing index 0 from a two-object arena. -/
theorem kitty_remove_shifts_witness :
    (Kitty_RemoveObject
        ⟨K_DEFAULT_OBJECT_MSPACE_SIZE,
          [⟨Kitty_ObjType.circle, 1⟩, ⟨Kitty_ObjType.line, 2⟩]⟩ 0).2.objects =
      [⟨Kitty_ObjType.line, 2⟩] :=
  ((kitty_remove_shifts
      ⟨K_DEFAULT_OBJECT_MSPACE_SIZE,
        [⟨Kitty_ObjType.circle, 1⟩, ⟨Kitty_ObjType.line, 2⟩]⟩ 0 (by decide)).2.2.1).trans
    (by decide)

/-- `Kitty_Vertex3D` (kittyengine.h): float 3D vertex, floats as `ℚ`. -/
structure Kitty_Vertex3D where
  x : ℚ
  y : ℚ
  z : ℚ
deriving DecidableEq

/-- `Kitty_UV` (kittyengine.h): float texture coordinate pair. -/
structure Kitty_UV where
  u : ℚ
  v : ℚ
deriving DecidableEq

/-- `Kitty_Face` (kittyengine.h): three `int` vertex indices and three
`int` UV indices. -/
structure Kitty_Face where
  a : ℤ
  b : ℤ
  c : ℤ
  uv_a : ℤ
  uv_b : ℤ
  uv_c : ℤ
deriving DecidableEq

/-- `Kitty_ObjMesh` (kittyengine.h), restricted to the growable geometry
arrays the verified claims are about; each `*_count` field of the C
struct is the length of the corresponding list.  (Position, scale, the
wire/wrap flags and the texture pointer play no role in these claims.) -/
structure Kitty_ObjMesh where
  vertices : List Kitty_Vertex3D
  faces : List Kitty_Face
  face_colors : List Kitty_Color
  uvs : List Kitty_UV
deriving DecidableEq

/-- `Kitty_AddVertexToObjMesh` (kittyengine.c:608), success path: grow the
vertex array by one element, store the vertex at slot `vertex_count`,
bump the count. -/
def Kitty_AddVertexToObjMesh (m : Kitty_ObjMesh) (v : Kitty_Vertex3D) :
    Kitty_ObjMesh :=
  { m with vertices := m.vertices ++ [v] }

/-- `Kitty_AddFaceToObjMesh` (kittyengine.c:624), success path: grow the
face and face-color arrays together by one element each and store the
face with its color at slot `face_count`. -/
def Kitty_AddFaceToObjMesh (m : Kitty_ObjMesh) (f : Kitty_Face)
    (face_color : Kitty_Color) : Kitty_ObjMesh :=
  { m with faces := m.faces ++ [f], face_colors := m.face_colors ++ [face_color] }

/-- `Kitty_AddUVToObjMesh` (kittyengine.c:647), success path: grow the UV
array by one element and store the UV at slot `uv_count`. -/
def Kitty_AddUVToObjMesh (m : Kitty_ObjMesh) (uv : Kitty_UV) : Kitty_ObjMesh :=
  { m with uvs := m.uvs ++ [uv] }

/-- The mesh payload built by `Kitty_CreateMesh` (kittyengine.c:842): all
geometry arrays empty, all counts zero. -/
def Kitty_CreateMesh : Kitty_ObjMesh :=
  { vertices := [], faces := [], face_colors := [], uvs := [] }

/-- One mesh-builder call. -/
inductive KittyMeshOp where
  | addVertex (v : Kitty_Vertex3D)
  | addFace (f : Kitty_Face) (c : Kitty_Color)
  | addUV (uv : Kitty_UV)

/-- Apply one mesh-builder call. -/
def kittyApplyMeshOp (m : Kitty_ObjMesh) : KittyMeshOp → Kitty_ObjMesh
  | .addVertex v => Kitty_AddVertexToObjMesh m v
  | .addFace f c => Kitty_AddFaceToObjMesh m f c
  | .addUV uv => Kitty_AddUVToObjMesh m uv

/-- The vertices appended by a call sequence, in call order. -/
def kittyMeshVerticesOf (ops : List KittyMeshOp) : List Kitty_Vertex3D :=
  ops.filterMap fun op =>
    match op with
    | .addVertex v => some v
    | _ => none

/-- The face/color pairs appended by a call sequence, in call order. -/
def kittyMeshFacePairsOf (ops : List KittyMeshOp) :
    List (Kitty_Face × Kitty_Color) :=
  ops.filterMap fun op =>
    match op with
    | .addFace f c => some (f, c)
    | _ => none

/-- The UVs appended by a call sequence, in call order. -/
def kittyMeshUVsOf (ops : List KittyMeshOp) : List Kitty_UV :=
  ops.filterMap fun op =>
    match op with
    | .addUV uv => some uv
    | _ => none

theorem kittyMeshFold_eq (ops : List KittyMeshOp) (m : Kitty_ObjMesh) :
    ops.foldl kittyApplyMeshOp m =
      { vertices := m.vertices ++ kittyMeshVerticesOf ops,
        faces := m.faces ++ (kittyMeshFacePairsOf ops).map Prod.fst,
        face_colors := m.face_colors ++ (kittyMeshFacePairsOf ops).map Prod.snd,
        uvs := m.uvs ++ kittyMeshUVsOf ops } := by
  induction ops generalizing m with
  | nil =>
      simp [kittyMeshVerticesOf, kittyMeshFacePairsOf, kittyMeshUVsOf]
  | cons op t ih =>
      cases op <;>
        simp [kittyApplyMeshOp, Kitty_AddVertexToObjMesh, Kitty_AddFaceToObjMesh,
          Kitty_AddUVToObjMesh, kittyMeshVerticesOf, kittyMeshFacePairsOf,
          kittyMeshUVsOf, List.filterMap_cons, ih]

/-- C5: starting from the empty mesh of `Kitty_CreateMesh`, any sequence
of successful mesh-builder calls leaves the vertex array holding exactly
the appended vertices in append order (so `vertex_count` is the number of
`add_vertex` calls), likewise for the UV array, and keeps the face and
face-color arrays in lockstep: equal lengths, with the i-th color the one
passed alongside the i-th face. -/
theorem kitty_mesh_append (ops : List KittyMeshOp) :
    (ops.foldl kittyApplyMeshOp Kitty_CreateMesh).vertices = kittyMeshVerticesOf ops ∧
    (ops.foldl kittyApplyMeshOp Kitty_CreateMesh).vertices.length =
      (kittyMeshVerticesOf ops).length ∧
    (ops.foldl kittyApplyMeshOp Kitty_CreateMesh).uvs = kittyMeshUVsOf ops ∧
    (ops.foldl kittyApplyMeshOp Kitty_CreateMesh).faces =
      (kittyMeshFacePairsOf ops).map Prod.fst ∧
    (ops.foldl kittyApplyMeshOp Kitty_CreateMesh).face_colors =
      (kittyMeshFacePairsOf ops).map Prod.snd ∧
    (ops.foldl kittyApplyMeshOp Kitty_CreateMesh).face_colors.length =
      (ops.foldl kittyApplyMeshOp Kitty_CreateMesh).faces.length := by
  rw [kittyMeshFold_eq ops Kitty_CreateMesh]
  refine ⟨rfl, rfl, rfl, rfl, rfl, ?_⟩
  simp [Kitty_CreateMesh]

/-- The six `int` values assigned by the `f`-line scan
`sscanf(line, "f %d/%d/%*d %d/%d/%*d %d/%d/%*d", ...)`
(kittyengine.c:702): the three 1-based vertex indices and the three
1-based UV indices.  The `%*d` normal indices are consumed with
assignment suppressed, so no variable ever receives them. -/
structure KittyFaceScan where
  a : ℤ
  b : ℤ
  c : ℤ
  uv_a : ℤ
  uv_b : ℤ
  uv_c : ℤ
deriving DecidableEq

/-- `strncmp(line, p, 2) == 0` for a two-character pattern `p0 p1`:
the line's first two characters both exist and match.  (For a line
shorter than two characters the C comparison hits the terminating NUL
and fails, which the pattern match reproduces.) -/
def kittyStrncmp2 (line : String) (p0 p1 : Char) : Bool :=
  match line.data with
  | c0 :: c1 :: _ => c0 = p0 && c1 = p1
  | _ => false

/-- The whitespace-delimited leading token of a line, as the claim's
"leading token" reads (stated from the claim's own words, for comparison
with what the code keys on). -/
def kittyLeadingToken (line : String) : List Char :=
  line.data.takeWhile fun c => c ≠ ' '

/-- One iteration of the `Kitty_LoadDotObj` line loop
(kittyengine.c:678-724).  `scanV`, `scanF` and `scanVT` stand for the
three `sscanf` extractions (external libc calls, kept abstract), and
`rnd` is the per-face random color drawn from `rand()`.  The branch
conditions are the code's `strncmp` calls: note the third one compares
only the first TWO characters of `"vt "`. -/
def Kitty_LoadDotObjLine (scanV : String → Kitty_Vertex3D)
    (scanF : String → KittyFaceScan) (scanVT : String → Kitty_UV)
    (rnd : Kitty_Color) (m : Kitty_ObjMesh) (line : String) : Kitty_ObjMesh :=
  if kittyStrncmp2 line 'v' ' ' then
    Kitty_AddVertexToObjMesh m (scanV line)
  else if kittyStrncmp2 line 'f' ' ' then
    let s := scanF line
    Kitty_AddFaceToObjMesh m
      ⟨s.a - 1, s.b - 1, s.c - 1, s.uv_a - 1, s.uv_b - 1, s.uv_c - 1⟩ rnd
  else if kittyStrncmp2 line 'v' 't' then
    let uv := scanVT line
    Kitty_AddUVToObjMesh m ⟨uv.u, 1 - uv.v⟩
  else
    m

/-- A concrete stand-in for the `v`-line `sscanf` extraction, used only to
instantiate counterexamples (its value never matters there). -/
def kittyScanV0 : String → Kitty_Vertex3D := fun _ => ⟨0, 0, 0⟩

/-- A concrete stand-in for the `f`-line `sscanf` extraction. -/
def kittyScanF0 : String → KittyFaceScan := fun _ => ⟨1, 1, 1, 1, 1, 1⟩

/-- A concrete stand-in for the `vt`-line `sscanf` extraction. -/
def kittyScanVT0 : String → Kitty_UV := fun _ => ⟨0, 0⟩

/-- Counterexample to C6: the line `"vtx 0 0"` has leading token `vtx`,
which is none of `v`, `vt`, `f`, so the claim says the mesh is left
completely unchanged — but the loader's third branch compares only two
characters (`strncmp(line, "vt ", 2)`), matches, and appends a UV.
(This holds for every possible `sscanf` outcome; the zero stand-in
oracles just make the statement closed.) -/
theorem kitty_loadobj_other_token_cex :
    kittyLeadingToken "vtx 0 0" = ['v', 't', 'x'] ∧
    kittyLeadingToken "vtx 0 0" ≠ ['v'] ∧
    kittyLeadingToken "vtx 0 0" ≠ ['v', 't'] ∧
    kittyLeadingToken "vtx 0 0" ≠ ['f'] ∧
    Kitty_LoadDotObjLine kittyScanV0 kittyScanF0 kittyScanVT0 ⟨0, 0, 0, 255⟩
        Kitty_CreateMesh "vtx 0 0" ≠ Kitty_CreateMesh := by
  refine ⟨by decide, by decide, by decide, by decide, ?_⟩
  intro h
  have := congrArg (fun m => m.uvs.length) h
  simp [Kitty_LoadDotObjLine, kittyStrncmp2, Kitty_AddUVToObjMesh,
    Kitty_CreateMesh] at this

/-- C6 as amended: per processed line, a line whose first two characters
are `"v "` appends the scanned vertex unchanged; otherwise a line whose
first two characters are `"f "` appends one face whose six stored indices
are the scanned 1-based vertex/UV indices each decremented by 1 (normal
indices are never assigned), with the per-face color attached; otherwise
a line whose first two characters are `"vt"` (regardless of what follows,
e.g. also a line with leading token `vtx`) appends a UV keeping the
scanned `u` and storing `1 - v` for the scanned `v`; any other line
leaves the mesh completely unchanged. -/
theorem kitty_loadobj_line_dispatch (scanV : String → Kitty_Vertex3D)
    (scanF : String → KittyFaceScan) (scanVT : String → Kitty_UV)
    (rnd : Kitty_Color) (m : Kitty_ObjMesh) (line : String) :
    (kittyStrncmp2 line 'v' ' ' = true →
      Kitty_LoadDotObjLine scanV scanF scanVT rnd m line =
        Kitty_AddVertexToObjMesh m (scanV line)) ∧
    (kittyStrncmp2 line 'v' ' ' = false → kittyStrncmp2 line 'f' ' ' = true →
      Kitty_LoadDotObjLine scanV scanF scanVT rnd m line =
        Kitty_AddFaceToObjMesh m
          ⟨(scanF line).a - 1, (scanF line).b - 1, (scanF line).c - 1,
            (scanF line).uv_a - 1, (scanF line).uv_b - 1, (scanF line).uv_c - 1⟩ rnd) ∧
    (kittyStrncmp2 line 'v' ' ' = false → kittyStrncmp2 line 'f' ' ' = false →
      kittyStrncmp2 line 'v' 't' = true →
      Kitty_LoadDotObjLine scanV scanF scanVT rnd m line =
        Kitty_AddUVToObjMesh m ⟨(scanVT line).u, 1 - (scanVT line).v⟩) ∧
    (kittyStrncmp2 line 'v' ' ' = false → kittyStrncmp2 line 'f' ' ' = false →
      kittyStrncmp2 line 'v' 't' = false →
      Kitty_LoadDotObjLine scanV scanF scanVT rnd m line = m) := by
  refine ⟨?_, ?_, ?_, ?_⟩
  · intro h1
    simp [Kitty_LoadDotObjLine, h1]
  · intro h1 h2
    simp [Kitty_LoadDotObjLine, h1, h2]
  · intro h1 h2 h3
    simp [Kitty_LoadDotObjLine, h1, h2, h3]
  · intro h1 h2 h3
    simp [Kitty_LoadDotObjLine, h1, h2, h3]

/-- Witness for C6 (amended): each of the four branches exercised on a
concrete line with the concrete stand-in scanners. -/
theorem kitty_loadobj_line_dispatch_witness :
    Kitty_LoadDotObjLine kittyScanV0 kittyScanF0 kittyScanVT0 ⟨0, 0, 0, 255⟩
        Kitty_CreateMesh "v 1 2 3" =
      Kitty_AddVertexToObjMesh Kitty_CreateMesh (kittyScanV0 "v 1 2 3") ∧
    Kitty_LoadDotObjLine kittyScanV0 kittyScanF0 kittyScanVT0 ⟨0, 0, 0, 255⟩
        Kitty_CreateMesh "f 1/1/1 1/1/1 1/1/1" =
      Kitty_AddFaceToObjMesh Kitty_CreateMesh ⟨0, 0, 0, 0, 0, 0⟩ ⟨0, 0, 0, 255⟩ ∧
    Kitty_LoadDotObjLine kittyScanV0 kittyScanF0 kittyScanVT0 ⟨0, 0, 0, 255⟩
        Kitty_CreateMesh "vt 0 0" =
      Kitty_AddUVToObjMesh Kitty_CreateMesh ⟨0, 1⟩ ∧
    Kitty_LoadDotObjLine kittyScanV0 kittyScanF0 kittyScanVT0 ⟨0, 0, 0, 255⟩
        Kitty_CreateMesh "# comment" = Kitty_CreateMesh := by
  refine ⟨?_, ?_, ?_, ?_⟩
  · exact (kitty_loadobj_line_dispatch kittyScanV0 kittyScanF0 kittyScanVT0
      ⟨0, 0, 0, 255⟩ Kitty_CreateMesh "v 1 2 3").1 (by decide)
  · exact ((kitty_loadobj_line_dispatch kittyScanV0 kittyScanF0 kittyScanVT0
      ⟨0, 0, 0, 255⟩ Kitty_CreateMesh "f 1/1/1 1/1/1 1/1/1").2.1 (by decide)
        (by decide)).trans (by norm_num [kittyScanF0])
  · exact ((kitty_loadobj_line_dispatch kittyScanV0 kittyScanF0 kittyScanVT0
      ⟨0, 0, 0, 255⟩ Kitty_CreateMesh "vt 0 0").2.2.1 (by decide) (by decide)
        (by decide)).trans (by norm_num [kittyScanVT0])
  · exact (kitty_loadobj_line_dispatch kittyScanV0 kittyScanF0 kittyScanVT0
      ⟨0, 0, 0, 255⟩ Kitty_CreateMesh "# comment").2.2.2 (by decide) (by decide)
        (by decide)

/-- The set of points plotted by the filled-circle branch of
`Kitty_RenderObjects` (kittyengine.c:161-171) for integer radius `r`
centered at `(cx, cy)`: nested loops `w, h` over `[0, 2r)`, offsets
`dx = r - w`, `dy = r - h`, plotting when `dx*dx + dy*dy <= r*r`.
(For an integer radius every float computation there is exact.) -/
def kittyFilledCirclePoints (cx cy r : ℤ) : Finset (ℤ × ℤ) :=
  ((Finset.range (2 * r).toNat ×ˢ Finset.range (2 * r).toNat).filter
      fun wh => (r - (wh.1 : ℤ)) * (r - (wh.1 : ℤ)) +
        (r - (wh.2 : ℤ)) * (r - (wh.2 : ℤ)) ≤ r * r).image
    fun wh => (cx + (r - (wh.1 : ℤ)), cy + (r - (wh.2 : ℤ)))

/-- The point set claimed by the spec (stated from the claim's own words,
for comparison): every integer offset pair in the FULL bounding box
`[-r, r] × [-r, r]` satisfying the disk inequality. -/
def kittySpecCircleDisk (cx cy r : ℤ) : Finset (ℤ × ℤ) :=
  ((Finset.Icc (-r) r ×ˢ Finset.Icc (-r) r).filter
      fun d => d.1 * d.1 + d.2 * d.2 ≤ r * r).image
    fun d => (cx + d.1, cy + d.2)

/-- Counterexample to C7: for a radius-1 circle at the origin, the offset
`(-1, 0)` lies in the claimed full bounding box and satisfies the disk
inequality, yet the code never scans offset `-r` (its loops run `w, h`
over `[0, 2r)`, so `dx = r - w` ranges over `[1-r, r]` only) and the
point is not plotted. -/
theorem kitty_circle_full_box_cex :
    ((-1 : ℤ), (0 : ℤ)) ∈ kittySpecCircleDisk 0 0 1 ∧
    ((-1 : ℤ), (0 : ℤ)) ∉ kittyFilledCirclePoints 0 0 1 := by decide

/-- C7 as amended: for integer radius `r ≥ 1` the filled-circle branch
plots exactly the integer offsets `(dx, dy)` with `1 - r ≤ dx, dy ≤ r`
(the half-open bounding box the `2r`-wide loops actually scan, which
misses the `-r` row and column) that satisfy `dx² + dy² ≤ r²`, and no
other point. -/
theorem kitty_circle_plots (cx cy r : ℤ) (hr : 1 ≤ r) (dx dy : ℤ) :
    (cx + dx, cy + dy) ∈ kittyFilledCirclePoints cx cy r ↔
      (1 - r ≤ dx ∧ dx ≤ r ∧ 1 - r ≤ dy ∧ dy ≤ r ∧
        dx * dx + dy * dy ≤ r * r) := by
  unfold kittyFilledCirclePoints
  simp only [Finset.mem_image, Finset.mem_filter, Finset.mem_product,
    Finset.mem_range, Prod.exists, Prod.mk.injEq]
  constructor
  · rintro ⟨w, h, ⟨⟨hw, hh⟩, hd⟩, heqx, heqy⟩
    have hdx : dx = r - (w : ℤ) := by omega
    have hdy : dy = r - (h : ℤ) := by omega
    have hw' : (w : ℤ) < 2 * r := by omega
    have hh' : (h : ℤ) < 2 * r := by omega
    subst hdx hdy
    refine ⟨by omega, by omega, by omega, by omega, hd⟩
  · rintro ⟨h1, h2, h3, h4, h5⟩
    refine ⟨(r - dx).toNat, (r - dy).toNat, ⟨⟨by omega, by omega⟩, ?_⟩, ?_, ?_⟩
    · have e1 : ((r - dx).toNat : ℤ) = r - dx := by omega
      have e2 : ((r - dy).toNat : ℤ) = r - dy := by omega
      rw [e1, e2]
      have : r - (r - dx) = dx := by ring
      rw [this]
      have : r - (r - dy) = dy := by ring
      rw [this]
      exact h5
    · omega
    · omega

/-- Witness for C7 (amended): the offset `(1, 0)` of a radius-1 circle at
the origin is plotted. -/
theorem kitty_circle_plots_witness :
    ((0 : ℤ) + 1, (0 : ℤ) + 0) ∈ kittyFilledCirclePoints 0 0 1 :=
  (kitty_circle_plots 0 0 1 (by norm_num) 1 0).mpr (by norm_num)

/-- The face depth key of the painter sort in `Kitty_RenderObjects`
(kittyengine.c:314-315): the arithmetic mean of the z components of the
face's three vertices. -/
def kittyFaceAvgZ (verts : List Kitty_Vertex3D) (f : Kitty_Face) : ℚ :=
  ((verts.getD f.a.toNat ⟨0, 0, 0⟩).z + (verts.getD f.b.toNat ⟨0, 0, 0⟩).z +
    (verts.getD f.c.toNat ⟨0, 0, 0⟩).z) / 3

/-- One inner pass of the depth bubble sort (kittyengine.c:310-326) with
`p` comparisons left: compare the keys of adjacent elements and swap them
when the earlier key is strictly smaller (`if (z1 < z2)`). -/
def kittyBubblePass {α : Type} (key : α → ℚ) : ℕ → List α → List α
  | 0, l => l
  | _ + 1, [] => []
  | _ + 1, [a] => [a]
  | p + 1, a :: b :: t =>
      if key a < key b then b :: kittyBubblePass key p (a :: t)
      else a :: kittyBubblePass key p (b :: t)

/-- The outer loop of the sort (kittyengine.c:309): iteration `j` runs the
inner loop for `face_count - j - 1` comparisons, i.e. the passes use
`n-1, n-2, ..., 1` comparisons in that order. -/
def kittyBubbleOuter {α : Type} (key : α → ℚ) : ℕ → List α → List α
  | 0, l => l
  | p + 1, l => kittyBubbleOuter key p (kittyBubblePass key (p + 1) l)

/-- The complete depth bubble sort of a list of `n ≥ 1` elements.  (For
`n = 0` the C loop bound `face_count - 1` underflows its `size_t` — see
the separate underflow theorem — so this models the loop only for
nonempty face arrays, truncated subtraction standing in for the in-range
case.) -/
def kittyBubbleSort {α : Type} (key : α → ℚ) (l : List α) : List α :=
  kittyBubbleOuter key (l.length - 1) l

theorem kittyBubblePass_zero {α : Type} (key : α → ℚ) (l : List α) :
    kittyBubblePass key 0 l = l := rfl

theorem kittyBubblePass_nil {α : Type} (key : α → ℚ) (p : ℕ) :
    kittyBubblePass key p [] = [] := by
  cases p <;> rfl

theorem kittyBubblePass_singleton {α : Type} (key : α → ℚ) (p : ℕ) (a : α) :
    kittyBubblePass key p [a] = [a] := by
  cases p <;> rfl

theorem kittyBubblePass_cons₂ {α : Type} (key : α → ℚ) (p : ℕ) (a b : α)
    (t : List α) :
    kittyBubblePass key (p + 1) (a :: b :: t) =
      if key a < key b then b :: kittyBubblePass key p (a :: t)
      else a :: kittyBubblePass key p (b :: t) := rfl

theorem kittyBubbleOuter_succ {α : Type} (key : α → ℚ) (p : ℕ) (l : List α) :
    kittyBubbleOuter key (p + 1) l =
      kittyBubbleOuter key p (kittyBubblePass key (p + 1) l) := rfl

theorem kittyBubblePass_perm {α : Type} (key : α → ℚ) :
    ∀ (p : ℕ) (l : List α), (kittyBubblePass key p l).Perm l := by
  intro p
  induction p with
  | zero =>
      intro l
      rw [kittyBubblePass_zero]
  | succ p ih =>
      intro l
      cases l with
      | nil => rw [kittyBubblePass_nil]
      | cons a t =>
          cases t with
          | nil => rw [kittyBubblePass_singleton]
          | cons b t' =>
              rw [kittyBubblePass_cons₂]
              by_cases hab : key a < key b
              · rw [if_pos hab]
                exact ((ih (a :: t')).cons b).trans (List.Perm.swap a b t')
              · rw [if_neg hab]
                exact (ih (b :: t')).cons a

theorem kittyBubblePass_min {α : Type} (key : α → ℚ) :
    ∀ (p : ℕ) (l : List α), l ≠ [] → l.length ≤ p + 1 →
      ∃ r m, kittyBubblePass key p l = r ++ [m] ∧ ∀ x ∈ l, key m ≤ key x := by
  intro p
  induction p with
  | zero =>
      intro l hne hlen
      cases l with
      | nil => exact absurd rfl hne
      | cons a t =>
          cases t with
          | nil =>
              exact ⟨[], a, rfl, by
                intro x hx
                simp only [List.mem_singleton] at hx
                subst hx
                exact le_refl _⟩
          | cons b t' => simp at hlen
  | succ p ih =>
      intro l hne hlen
      cases l with
      | nil => exact absurd rfl hne
      | cons a t =>
          cases t with
          | nil =>
              exact ⟨[], a, kittyBubblePass_singleton key _ a, by
                intro x hx
                simp only [List.mem_singleton] at hx
                subst hx
                exact le_refl _⟩
          | cons b t' =>
              simp only [List.length_cons] at hlen
              by_cases hab : key a < key b
              · obtain ⟨r, m, heq, hmin⟩ := ih (a :: t') (by simp) (by simp; omega)
                refine ⟨b :: r, m, ?_, ?_⟩
                · rw [kittyBubblePass_cons₂, if_pos hab, heq]
                  rfl
                · intro x hx
                  rcases List.mem_cons.mp hx with rfl | hx'
                  · exact hmin x (List.mem_cons_self _ _)
                  rcases List.mem_cons.mp hx' with rfl | hx''
                  · exact le_trans (hmin a (List.mem_cons_self _ _)) (le_of_lt hab)
                  · exact hmin x (List.mem_cons_of_mem _ hx'')
              · obtain ⟨r, m, heq, hmin⟩ := ih (b :: t') (by simp) (by simp; omega)
                refine ⟨a :: r, m, ?_, ?_⟩
                · rw [kittyBubblePass_cons₂, if_neg hab, heq]
                  rfl
                · intro x hx
                  rcases List.mem_cons.mp hx with rfl | hx'
                  · exact le_trans (hmin b (List.mem_cons_self _ _)) (not_lt.mp hab)
                  · exact hmin x hx'

theorem kittyBubblePass_append_min {α : Type} (key : α → ℚ) :
    ∀ (p : ℕ) (l : List α) (m : α), (∀ x ∈ l, key m ≤ key x) →
      kittyBubblePass key p (l ++ [m]) = kittyBubblePass key p l ++ [m] := by
  intro p
  induction p with
  | zero =>
      intro l m _
      rw [kittyBubblePass_zero, kittyBubblePass_zero]
  | succ p ih =>
      intro l m hm
      cases l with
      | nil =>
          rw [kittyBubblePass_nil]
          show kittyBubblePass key (p + 1) [m] = [m]
          exact kittyBubblePass_singleton key _ m
      | cons a t =>
          cases t with
          | nil =>
              have hma : key m ≤ key a := hm a (List.mem_cons_self _ _)
              show kittyBubblePass key (p + 1) (a :: m :: []) = _
              rw [kittyBubblePass_cons₂, if_neg (not_lt.mpr hma),
                kittyBubblePass_singleton, kittyBubblePass_singleton]
              rfl
          | cons b t' =>
              show kittyBubblePass key (p + 1) (a :: b :: (t' ++ [m])) = _
              rw [kittyBubblePass_cons₂, kittyBubblePass_cons₂]
              by_cases hab : key a < key b
              · rw [if_pos hab, if_pos hab]
                have hstep : a :: (t' ++ [m]) = (a :: t') ++ [m] := rfl
                rw [hstep, ih (a :: t') m (fun x hx => hm x (by
                  simp only [List.mem_cons] at hx ⊢
                  tauto))]
                rfl
              · rw [if_neg hab, if_neg hab]
                have hstep : b :: (t' ++ [m]) = (b :: t') ++ [m] := rfl
                rw [hstep, ih (b :: t') m (fun x hx => hm x (by
                  simp only [List.mem_cons] at hx ⊢
                  tauto))]
                rfl

theorem kittyBubbleOuter_perm {α : Type} (key : α → ℚ) :
    ∀ (p : ℕ) (l : List α), (kittyBubbleOuter key p l).Perm l := by
  intro p
  induction p with
  | zero => intro l; exact List.Perm.refl l
  | succ p ih =>
      intro l
      rw [kittyBubbleOuter_succ]
      exact (ih _).trans (kittyBubblePass_perm key (p + 1) l)

theorem kittyBubbleOuter_append_min {α : Type} (key : α → ℚ) :
    ∀ (p : ℕ) (l : List α) (m : α), (∀ x ∈ l, key m ≤ key x) →
      kittyBubbleOuter key p (l ++ [m]) = kittyBubbleOuter key p l ++ [m] := by
  intro p
  induction p with
  | zero => intro l m _; rfl
  | succ p ih =>
      intro l m hm
      rw [kittyBubbleOuter_succ, kittyBubbleOuter_succ,
        kittyBubblePass_append_min key (p + 1) l m hm]
      refine ih _ m ?_
      intro x hx
      exact hm x ((kittyBubblePass_perm key (p + 1) l).subset hx)

theorem kittyBubbleOuter_sorted {α : Type} (key : α → ℚ) :
    ∀ (p : ℕ) (l : List α), l.length ≤ p + 1 →
      (kittyBubbleOuter key p l).Pairwise fun x y => key y ≤ key x := by
  intro p
  induction p with
  | zero =>
      intro l hlen
      cases l with
      | nil => exact List.Pairwise.nil
      | cons a t =>
          cases t with
          | nil => exact List.pairwise_singleton _ _
          | cons b t' => simp at hlen
  | succ p ih =>
      intro l hlen
      rcases eq_or_ne l [] with rfl | hne
      · rw [kittyBubbleOuter_succ, kittyBubblePass_nil]
        exact ih [] (by simp)
      · obtain ⟨r, m, heq, hmin⟩ :=
          kittyBubblePass_min key (p + 1) l hne (by omega)
        have hperm := kittyBubblePass_perm key (p + 1) l
        have hmem_r : ∀ x ∈ r, key m ≤ key x := by
          intro x hx
          exact hmin x (hperm.subset (by
            rw [heq]
            exact List.mem_append_left _ hx))
        have hlen_r : r.length ≤ p + 1 := by
          have hl := hperm.length_eq
          rw [heq] at hl
          simp only [List.length_append, List.length_singleton] at hl
          omega
        rw [kittyBubbleOuter_succ, heq,
          kittyBubbleOuter_append_min key p r m hmem_r,
          List.pairwise_append]
        refine ⟨ih r hlen_r, by simp, ?_⟩
        intro x hx y hy
        simp only [List.mem_singleton] at hy
        subst hy
        exact hmem_r x ((kittyBubbleOuter_perm key p r).subset hx)

/-- The depth sort `Kitty_RenderObjects` performs on a mesh
(kittyengine.c:308-327).  Faces and their colors are always swapped
simultaneously at the same indices, so the loop is the bubble sort of the
face/color PAIRS under the average-z key of the face component. -/
def kittyMeshSortFaces (m : Kitty_ObjMesh) : List (Kitty_Face × Kitty_Color) :=
  kittyBubbleSort (fun p => kittyFaceAvgZ m.vertices p.1)
    (m.faces.zip m.face_colors)

/-- A two-face mesh whose first face has average z `0` and second face
average z `3`, used to exercise the depth sort on concrete data. -/
def kittyCexMesh : Kitty_ObjMesh :=
  { vertices := [⟨0, 0, 0⟩, ⟨0, 0, 3⟩],
    faces := [⟨0, 0, 0, 0, 0, 0⟩, ⟨1, 1, 1, 0, 0, 0⟩],
    face_colors := [⟨255, 0, 0, 255⟩, ⟨0, 255, 0, 255⟩],
    uvs := [] }

theorem kittyCexMesh_keys :
    kittyFaceAvgZ kittyCexMesh.vertices ⟨0, 0, 0, 0, 0, 0⟩ = 0 ∧
    kittyFaceAvgZ kittyCexMesh.vertices ⟨1, 1, 1, 0, 0, 0⟩ = 3 := by
  constructor <;> norm_num [kittyFaceAvgZ, kittyCexMesh, List.getD]

/-- Counterexample to C8: the sort swaps when `z1 < z2`
(kittyengine.c:317), so it orders faces by DESCENDING average z.  On a
mesh with face depth keys `0, 3` (in that order) the sorted list starts
with the key-3 face, so it is not ordered by ascending average vertex z
as the claim states. -/
theorem kitty_depth_sort_ascending_cex :
    ¬ (kittyMeshSortFaces kittyCexMesh).Pairwise
        (fun p q => kittyFaceAvgZ kittyCexMesh.vertices p.1 ≤
          kittyFaceAvgZ kittyCexMesh.vertices q.1) := by
  intro h
  have heval : kittyMeshSortFaces kittyCexMesh =
      if kittyFaceAvgZ kittyCexMesh.vertices (⟨0, 0, 0, 0, 0, 0⟩ : Kitty_Face) <
          kittyFaceAvgZ kittyCexMesh.vertices (⟨1, 1, 1, 0, 0, 0⟩ : Kitty_Face) then
        [((⟨1, 1, 1, 0, 0, 0⟩ : Kitty_Face), (⟨0, 255, 0, 255⟩ : Kitty_Color)),
          ((⟨0, 0, 0, 0, 0, 0⟩ : Kitty_Face), (⟨255, 0, 0, 255⟩ : Kitty_Color))]
      else
        [((⟨0, 0, 0, 0, 0, 0⟩ : Kitty_Face), (⟨255, 0, 0, 255⟩ : Kitty_Color)),
          ((⟨1, 1, 1, 0, 0, 0⟩ : Kitty_Face), (⟨0, 255, 0, 255⟩ : Kitty_Color))] := rfl
  obtain ⟨hk0, hk1⟩ := kittyCexMesh_keys
  rw [heval, if_pos (by rw [hk0, hk1]; norm_num)] at h
  have hle := (List.pairwise_cons.mp h).1 _ (List.mem_cons_self _ _)
  rw [hk0, hk1] at hle
  norm_num at hle

/-- C8 as amended: for a mesh with at least one face, once the per-mesh
bubble sort completes the face/color pairs are ordered by DESCENDING
average vertex z (the code swaps on `z1 < z2`, drawing the deepest faces
first — painter's order under the engine's convention), and faces and
colors are swapped together: the sorted pair list is a permutation of the
original pairing, so each face keeps its associated color. -/
theorem kitty_mesh_depth_sort (m : Kitty_ObjMesh) (h : 1 ≤ m.faces.length) :
    (kittyMeshSortFaces m).Pairwise
      (fun p q => kittyFaceAvgZ m.vertices q.1 ≤ kittyFaceAvgZ m.vertices p.1) ∧
    (kittyMeshSortFaces m).Perm (m.faces.zip m.face_colors) := by
  constructor
  · exact kittyBubbleOuter_sorted _ _ _ (by omega)
  · exact kittyBubbleOuter_perm _ _ _

/-- Witness for C8 (amended) on the concrete two-face mesh. -/
theorem kitty_mesh_depth_sort_witness :
    (kittyMeshSortFaces kittyCexMesh).Perm
      (kittyCexMesh.faces.zip kittyCexMesh.face_colors) :=
  (kitty_mesh_depth_sort kittyCexMesh (by norm_num [kittyCexMesh])).2

/-- Linear interpolation `a + t * (b - a)`, the form used for every edge
and scanline attribute interpolation in the textured-mesh path
(kittyengine.c:476-479 and 501-503). -/
def kittyLerp (a b t : ℚ) : ℚ := a + t * (b - a)

/-- The `(u, v)` recovered at one sampled pixel of the wrap-mode textured
path of `Kitty_RenderObjects` (kittyengine.c:455-509), before wrapping:
`u`, `v`, `w` are the three vertex attributes (`U_p`/`V_p` are the
pre-multiplied `u*persp`, `v*persp` of lines 386-391 and `W_p` the persp
factors); the two scanline nodes interpolate along edges `(i,j)` and
`(k,l)` with the code's parameters `t = (y - y_i)/(y_j - y_i)`; `tx` is
the scanline parameter `(x - x0)/(x1 - x0)`; the pixel divides the
interpolated `u_p`, `v_p` by the interpolated `w_p`. -/
def kittyPerspUV (u v w : Fin 3 → ℚ) (i j k l : Fin 3) (t1 t2 tx : ℚ) :
    ℚ × ℚ :=
  (kittyLerp (kittyLerp (u i * w i) (u j * w j) t1)
      (kittyLerp (u k * w k) (u l * w l) t2) tx /
    kittyLerp (kittyLerp (w i) (w j) t1) (kittyLerp (w k) (w l) t2) tx,
   kittyLerp (kittyLerp (v i * w i) (v j * w j) t1)
      (kittyLerp (v k * w k) (v l * w l) t2) tx /
    kittyLerp (kittyLerp (w i) (w j) t1) (kittyLerp (w k) (w l) t2) tx)

/-- The plain affine (non-perspective) interpolation of the raw vertex
UVs along the same two edges and across the same scanline. -/
def kittyAffineUV (u v : Fin 3 → ℚ) (i j k l : Fin 3) (t1 t2 tx : ℚ) :
    ℚ × ℚ :=
  (kittyLerp (kittyLerp (u i) (u j) t1) (kittyLerp (u k) (u l) t2) tx,
   kittyLerp (kittyLerp (v i) (v j) t1) (kittyLerp (v k) (v l) t2) tx)

/-- C9: when all three vertices have perspective factor `w = 1`, the
interpolated `w_p` is identically `1` (so the `|w_p| < 1e-8` guard never
skips a pixel) and the perspective-correct `u_p/w_p`, `v_p/w_p` scheme
computes exactly the plain affine interpolation of the vertex UVs, at
every sampled pixel, for every pair of intersected edges. -/
theorem kitty_persp_affine (u v w : Fin 3 → ℚ) (i j k l : Fin 3)
    (t1 t2 tx : ℚ) (hw : ∀ n, w n = 1) :
    kittyLerp (kittyLerp (w i) (w j) t1) (kittyLerp (w k) (w l) t2) tx = 1 ∧
    kittyPerspUV u v w i j k l t1 t2 tx = kittyAffineUV u v i j k l t1 t2 tx := by
  have hwp : kittyLerp (kittyLerp (w i) (w j) t1)
      (kittyLerp (w k) (w l) t2) tx = 1 := by
    simp [kittyLerp, hw]
  refine ⟨hwp, ?_⟩
  unfold kittyPerspUV kittyAffineUV
  rw [hwp]
  simp [hw]

/-- Test attribute: `u` values `0, 1, 2` at the three vertices. -/
def kittyAttrU : Fin 3 → ℚ := fun n => (n.1 : ℚ)

/-- Test attribute: `v` values `1, 2, 3` at the three vertices. -/
def kittyAttrV : Fin 3 → ℚ := fun n => (n.1 : ℚ) + 1

/-- The all-ones perspective factors (`w = 1` at every vertex). -/
def kittyW1 : Fin 3 → ℚ := fun _ => 1

/-- Witness for C9 at concrete vertex attributes, edges `(0,1)`, `(1,2)`
and parameters `1/2`, `1/3`, `1/4`. -/
theorem kitty_persp_affine_witness :
    kittyLerp (kittyLerp (kittyW1 0) (kittyW1 1) (1 / 2))
        (kittyLerp (kittyW1 1) (kittyW1 2) (1 / 3)) (1 / 4) = 1 ∧
    kittyPerspUV kittyAttrU kittyAttrV kittyW1 0 1 1 2 (1 / 2) (1 / 3) (1 / 4) =
      kittyAffineUV kittyAttrU kittyAttrV 0 1 1 2 (1 / 2) (1 / 3) (1 / 4) :=
  kitty_persp_affine kittyAttrU kittyAttrV kittyW1 0 1 1 2 (1 / 2) (1 / 3)
    (1 / 4) (fun _ => rfl)

/-- `x - 1` computed on a C `size_t` (64-bit unsigned): addition of
`2^64 - 1` modulo `2^64`.  This is the loop-bound computation
`m_obj->face_count - 1` of the depth sort (kittyengine.c:309). -/
def kittySizetSub1 (n : ℕ) : ℕ := (n + (2 ^ 64 - 1)) % 2 ^ 64

/-- C10: rendering a mesh in the state `Kitty_CreateMesh` produces
(`face_count = 0`) is not safe: the sort's outer loop bound
`face_count - 1` underflows on `size_t` to `2^64 - 1`, so the loop is
entered (`0 < 2^64 - 1`) even though no index at all is in bounds for the
empty `faces` array — an out-of-bounds read; whereas for any
`face_count >= 1` the bound computes without wraparound and every index
the sort loops touch (`k` and `k + 1` for `j < face_count - 1`,
`k < face_count - j - 1`) stays strictly below `face_count`. -/
theorem kitty_empty_mesh_sort_underflow :
    Kitty_CreateMesh.faces.length = 0 ∧
    kittySizetSub1 0 = 2 ^ 64 - 1 ∧
    0 < kittySizetSub1 0 ∧
    (∀ idx : ℕ, ¬ idx < Kitty_CreateMesh.faces.length) ∧
    (∀ fc : ℕ, 1 ≤ fc → fc < 2 ^ 64 →
      kittySizetSub1 fc = fc - 1 ∧
      ∀ j k : ℕ, j < kittySizetSub1 fc → k < kittySizetSub1 (fc - j) →
        k + 1 < fc) := by
  have hp : (2 : ℕ) ^ 64 = 18446744073709551616 := by norm_num
  have h1 : kittySizetSub1 0 = 2 ^ 64 - 1 := by
    unfold kittySizetSub1
    rw [hp]
  refine ⟨rfl, h1, ?_, ?_, ?_⟩
  · rw [h1, hp]
    norm_num
  · intro idx
    simp [Kitty_CreateMesh]
  · intro fc hfc1 hfc2
    rw [hp] at hfc2
    have e1 : kittySizetSub1 fc = fc - 1 := by
      unfold kittySizetSub1
      rw [hp]
      omega
    refine ⟨e1, ?_⟩
    intro j k hj hk
    rw [e1] at hj
    have e2 : kittySizetSub1 (fc - j) = fc - j - 1 := by
      unfold kittySizetSub1
      rw [hp]
      omega
    rw [e2] at hk
    omega

/-- Witness for C10: at `face_count = 2` the bound computes to `1` and the
only comparison the sort makes touches indices `0` and `1 < 2`. -/
theorem kitty_empty_mesh_sort_underflow_witness :
    kittySizetSub1 2 = 1 ∧ (0 : ℕ) + 1 < 2 :=
  ⟨(kitty_empty_mesh_sort_underflow.2.2.2.2 2 (by norm_num)
      (by norm_num)).1,
    (kitty_empty_mesh_sort_underflow.2.2.2.2 2 (by norm_num)
      (by norm_num)).2 0 0
      (by
        rw [(kitty_empty_mesh_sort_underflow.2.2.2.2 2 (by norm_num)
          (by norm_num)).1]
        norm_num)
      (by
        rw [(kitty_empty_mesh_sort_underflow.2.2.2.2 2 (by norm_num)
          (by norm_num)).1]
        norm_num)⟩
